import Mathlib

/-!
Formal model of the `rustop` terminal dashboard (`src/main.rs`) and proofs
about its frame-derivation logic (memory/CPU percentages, process ranking,
line formatting) and its dashboard loop (tick timing, quit handling, error
propagation).

Embedding conventions:
* `f32`/`f64` arithmetic is embedded as exact rational arithmetic over `ℚ`;
  a possibly-NaN float is embedded as `Option ℚ` with `none` standing for NaN.
* Rust's saturating float-to-integer `as` casts are modelled explicitly.
* `Duration`s are natural numbers (nanoseconds); `Instant`s are abstract
  natural-number timestamps.
* Fallible terminal I/O is modelled by an environment of `Except`-valued
  operations, and the `main` control flow as a function of that environment.
-/

namespace Rustop

/-- Models the Rust float-to-`u16` cast `x as u16` (Rust float-to-integer `as`
casts saturate): negative values go to `0`, values at or above `65536` go to
`65535`, and otherwise the value is truncated toward zero. -/
def ratToU16 (q : ℚ) : ℕ :=
  if q < 0 then 0 else min (Int.toNat ⌊q⌋) 65535

/-- Embeds `.percent(cpu_usage as u16)` from `main.rs`: the sampled global CPU
utilisation is cast straight to `u16`; no clamp at 100 is applied. -/
def cpuGaugePercent (cpuUsage : ℚ) : ℕ := ratToU16 cpuUsage

/-- Embeds the `mem_percent` computation from `main.rs`:
`if sys.total_memory() > 0 { ((used as f64 / total as f64) * 100.0) as u16 } else { 0 }`. -/
def memPercent (used total : ℕ) : ℕ :=
  if 0 < total then ratToU16 (((used : ℚ) / (total : ℚ)) * 100) else 0

/-- Embeds `Duration::checked_sub`: `none` when the subtrahend exceeds the
minuend (durations cannot be negative). -/
def checkedSub (a b : ℕ) : Option ℕ := if b ≤ a then some (a - b) else none

/-- Embeds the poll-timeout computation from `main.rs`:
`tick_rate.checked_sub(last_tick.elapsed()).unwrap_or_else(|| Duration::from_secs(0))`. -/
def timeoutFor (tickRate elapsed : ℕ) : ℕ := (checkedSub tickRate elapsed).getD 0

/-- Embeds the end-of-tick update from `main.rs`:
`if last_tick.elapsed() >= tick_rate { last_tick = Instant::now(); }`,
with `elapsed` the elapsed time since `lastTick` and `now` the current instant. -/
def nextLastTick (lastTick now elapsed tickRate : ℕ) : ℕ :=
  if tickRate ≤ elapsed then now else lastTick

/-- With a positive total, the embedded memory-percent computation is the
integer division `(100 * used) / total` saturated at `65535`. -/
theorem memPercent_eq_min (used total : ℕ) (ht : 0 < total) :
    memPercent used total = min ((100 * used) / total) 65535 := by
  have hq : (0 : ℚ) < (total : ℚ) := by exact_mod_cast ht
  have hnonneg : (0 : ℚ) ≤ ((used : ℚ) / (total : ℚ)) * 100 := by positivity
  have hrw : ((used : ℚ) / (total : ℚ)) * 100 = (((100 * used : ℕ) : ℚ)) / ((total : ℕ) : ℚ) := by
    push_cast
    ring
  rw [memPercent, if_pos ht, ratToU16, if_neg (not_lt.mpr hnonneg), hrw,
    Int.floor_toNat, Nat.floor_div_nat, Nat.floor_natCast]

/-- Claim C2 (amended): if `total = 0` the memory percent is `0`; if
`total > 0` it is `⌊(used/total)·100⌋` saturated at `65535` by the `u16` cast;
and whenever `used ≤ total` it is exactly `⌊(used/total)·100⌋` and lies in
`[0, 100]`. -/
theorem claim_C2 (used total : ℕ) :
    (total = 0 → memPercent used total = 0) ∧
    (0 < total → memPercent used total = min ((100 * used) / total) 65535) ∧
    (0 < total → used ≤ total →
      memPercent used total = (100 * used) / total ∧ memPercent used total ≤ 100) := by
  refine ⟨fun h0 => ?_, fun ht => memPercent_eq_min used total ht, fun ht hle => ?_⟩
  · rw [memPercent, if_neg (by omega)]
  · have hdiv : (100 * used) / total ≤ 100 := by
      rw [Nat.div_le_iff_le_mul_add_pred ht]
      nlinarith
    rw [memPercent_eq_min used total ht]
    constructor
    · exact min_eq_left (by omega)
    · omega

/-- Claim C2 counterexample: at `total = 1`, `used = 1000` the code computes
`65535` (the saturating `u16` cast), not `⌊(used/total)·100⌋ = 100000` as the
claim states for every `total > 0`. -/
theorem claim_C2_cex :
    memPercent 1000 1 ≠ Int.toNat ⌊(((1000 : ℕ) : ℚ) / ((1 : ℕ) : ℚ)) * 100⌋ := by
  have h1 : memPercent 1000 1 = 65535 := by
    rw [memPercent_eq_min 1000 1 one_pos]
    norm_num
  have h2 : (((1000 : ℕ) : ℚ) / ((1 : ℕ) : ℚ)) * 100 = ((100000 : ℕ) : ℚ) := by
    norm_num
  rw [h1, h2, Int.floor_natCast]
  decide

/-- Claim C2 witness: the spec's own test vector, total `8000` and used
`4000`, gives memory percent `50`, within `[0, 100]`. -/
theorem claim_C2_witness :
    memPercent 4000 8000 = 50 ∧ memPercent 4000 8000 ≤ 100 := by
  have h := (claim_C2 4000 8000).2.2 (by norm_num) (by norm_num)
  exact ⟨by rw [h.1], h.2⟩

/-- Claim C10 (amended): for `total > 0` and `used > total` the memory percent
is at least `100`, and it strictly exceeds `100` exactly when the ratio is
large enough that its floor is `101` or more (e.g. whenever
`101·total ≤ 100·used`); for `used` only slightly above `total` the truncating
cast yields exactly `100`. No clamp at `100` is applied. -/
theorem claim_C10 (used total : ℕ) (ht : 0 < total) (hlt : total < used) :
    100 ≤ memPercent used total ∧
    (101 * total ≤ 100 * used → 100 < memPercent used total) := by
  rw [memPercent_eq_min used total ht]
  constructor
  · have h100 : 100 ≤ (100 * used) / total := by
      rw [Nat.le_div_iff_mul_le ht]
      nlinarith
    omega
  · intro h101
    have h : 101 ≤ (100 * used) / total := by
      rw [Nat.le_div_iff_mul_le ht]
      nlinarith
    omega

/-- Claim C10 counterexample: at `total = 200`, `used = 201` (so
`total > 0` and `used > total`) the computed percent is exactly `100`
(`⌊100.5⌋ = 100`), not strictly greater than `100` as the claim states. -/
theorem claim_C10_cex :
    (0 : ℕ) < 200 ∧ (200 : ℕ) < 201 ∧ ¬ 100 < memPercent 201 200 := by
  have h1 : memPercent 201 200 = 100 := by
    rw [memPercent_eq_min 201 200 (by norm_num)]
    norm_num
  refine ⟨by norm_num, by norm_num, by omega⟩

/-- Claim C10 witness: at `total = 100`, `used = 300` the percent is above
`100` and unclamped. -/
theorem claim_C10_witness : 100 < memPercent 300 100 :=
  (claim_C10 300 100 (by norm_num) (by norm_num)).2 (by norm_num)

/-- Claim C6: the CPU gauge percent is the sampled utilisation cast to an
integer with no clamping at 100: any input above `100` yields at least `100`,
any input at or above `101` yields strictly more than `100`, and within the
`u16` range the result is exactly the truncated value. -/
theorem claim_C6 (c : ℚ) (h : 100 < c) :
    100 ≤ cpuGaugePercent c ∧
    (101 ≤ c → 100 < cpuGaugePercent c) ∧
    (c < 65536 → (cpuGaugePercent c : ℤ) = ⌊c⌋) := by
  have hnn : ¬ c < 0 := by linarith
  have hfl : (100 : ℤ) ≤ ⌊c⌋ := Int.le_floor.mpr (by exact_mod_cast h.le)
  rw [cpuGaugePercent, ratToU16, if_neg hnn]
  refine ⟨by omega, fun h101 => ?_, fun hlt => ?_⟩
  · have : (101 : ℤ) ≤ ⌊c⌋ := Int.le_floor.mpr (by exact_mod_cast h101)
    omega
  · have hub : ⌊c⌋ < 65536 := Int.floor_lt.mpr (by exact_mod_cast hlt)
    have hmin : min (Int.toNat ⌊c⌋) 65535 = Int.toNat ⌊c⌋ := min_eq_left (by omega)
    rw [hmin]
    omega

/-- Claim C6 witness: a multi-core reading of `250.0` is passed through to the
gauge as `250`, well above `100`. -/
theorem claim_C6_witness :
    100 < cpuGaugePercent 250 ∧ (cpuGaugePercent (250 : ℚ) : ℤ) = ⌊(250 : ℚ)⌋ :=
  ⟨(claim_C6 250 (by norm_num)).2.1 (by norm_num),
   (claim_C6 250 (by norm_num)).2.2 (by norm_num)⟩

/-- Claim C5: the poll timeout is the tick interval minus the elapsed time,
clamped at zero; as an integer it equals `max (tickRate - elapsed) 0` and is
never negative. -/
theorem claim_C5 (tickRate elapsed : ℕ) :
    (timeoutFor tickRate elapsed : ℤ) = max ((tickRate : ℤ) - (elapsed : ℤ)) 0 ∧
    0 ≤ (timeoutFor tickRate elapsed : ℤ) := by
  unfold timeoutFor checkedSub
  by_cases hle : elapsed ≤ tickRate
  · rw [if_pos hle]
    constructor
    · simp only [Option.getD_some]
      omega
    · positivity
  · rw [if_neg hle]
    constructor
    · simp only [Option.getD_none]
      omega
    · positivity

/-- Claim C8: `last_tick` is reset to the current instant exactly when the
elapsed time has reached the tick interval, and is left unchanged otherwise. -/
theorem claim_C8 (lastTick now elapsed tickRate : ℕ) :
    (tickRate ≤ elapsed → nextLastTick lastTick now elapsed tickRate = now) ∧
    (elapsed < tickRate → nextLastTick lastTick now elapsed tickRate = lastTick) := by
  unfold nextLastTick
  constructor
  · intro h
    rw [if_pos h]
  · intro h
    rw [if_neg (by omega)]

/-- Claim C8 witness: with an 800 ns interval, elapsed 800 resets the clock to
the current instant 5, while elapsed 10 leaves it at 0. -/
theorem claim_C8_witness :
    nextLastTick 0 5 800 800 = 5 ∧ nextLastTick 0 5 10 800 = 0 :=
  ⟨(claim_C8 0 5 800 800).1 (by norm_num), (claim_C8 0 5 10 800).2 (by norm_num)⟩

/-- Embeds Rust `PartialOrd::partial_cmp` on `f32` values: the comparison is
undefined (`none`) when either operand is NaN (a NaN float is embedded as
`Option.none`, a finite one as `some` of its exact value). -/
def fcmp (x y : Option ℚ) : Option Ordering :=
  match x, y with
  | some a, some b => some (compare a b)
  | _, _ => none

/-- One per-process record of a snapshot, as read from the metric source:
process id, display name (a character list), CPU percent (`f32`, possibly
NaN), resident memory in bytes. -/
structure ProcRecord where
  pid : ℕ
  name : List Char
  cpu : Option ℚ
  memBytes : ℕ
  deriving DecidableEq

/-- Embeds the comparator closure passed to `sort_by` in `main.rs`:
`b.cpu_usage().partial_cmp(&a.cpu_usage()).unwrap()` — descending CPU order;
the `unwrap` panics when the comparison is undefined, modelled as `none`. -/
def cmpProc (a b : ProcRecord) : Option Ordering := fcmp b.cpu a.cpu

/-- Insertion step of the sort model: inserts `a` before the first element `b`
of `l` with `cmp a b ≠ some .gt`, and propagates `none` (the comparator
panic) as soon as a comparison is undefined. -/
def insertUnwrap (cmp : α → α → Option Ordering) (a : α) : List α → Option (List α)
  | [] => some [a]
  | b :: l =>
    match cmp a b with
    | none => none
    | some Ordering.gt => (insertUnwrap cmp a l).map (b :: ·)
    | some _ => some (a :: b :: l)

/-- Models Rust's stable `slice::sort_by` under a comparator that can panic
(as a stable insertion sort — Rust's merge sort is likewise stable): `some`
of the sorted list when every comparison made is defined, `none` when a
comparison panics. -/
def sortByUnwrap (cmp : α → α → Option Ordering) : List α → Option (List α)
  | [] => some []
  | x :: xs =>
    match sortByUnwrap cmp xs with
    | none => none
    | some l => insertUnwrap cmp x l

/-- The Ranked View of `main.rs`: the process records sorted by CPU percent
descending (`processes.sort_by(...)`) with the first 10 taken
(`.iter().take(10)`); `none` models the sort panicking. -/
def rankedView (l : List ProcRecord) : Option (List ProcRecord) :=
  (sortByUnwrap cmpProc l).map (List.take 10)

/-- The descending-CPU order in which the Ranked View is sorted: `a` may come
before `b` when `b`'s CPU value is at most `a`'s. -/
def cpuGe (a b : ProcRecord) : Prop := b.cpu.getD 0 ≤ a.cpu.getD 0

instance : DecidableRel cpuGe := fun a b =>
  inferInstanceAs (Decidable (b.cpu.getD 0 ≤ a.cpu.getD 0))

instance : IsTotal ProcRecord cpuGe := ⟨fun a b => le_total (b.cpu.getD 0) (a.cpu.getD 0)⟩

instance : IsTrans ProcRecord cpuGe := ⟨fun _ _ _ h1 h2 => le_trans h2 h1⟩

/-- On records with defined (non-NaN) CPU values, the panic-propagating
insertion step agrees with `List.orderedInsert` for the descending-CPU
order. -/
theorem insertUnwrap_eq_orderedInsert (a : ProcRecord) (l : List ProcRecord)
    (ha : a.cpu.isSome) (hl : ∀ p ∈ l, p.cpu.isSome) :
    insertUnwrap cmpProc a l = some (List.orderedInsert cpuGe a l) := by
  induction l with
  | nil => simp [insertUnwrap, List.orderedInsert]
  | cons b l ih =>
    obtain ⟨qa, hqa⟩ := Option.isSome_iff_exists.mp ha
    obtain ⟨qb, hqb⟩ := Option.isSome_iff_exists.mp (hl b (List.mem_cons_self b l))
    have hcmp : cmpProc a b = some (compare qb qa) := by
      simp [cmpProc, fcmp, hqa, hqb]
    have hge : cpuGe a b ↔ qb ≤ qa := by
      simp [cpuGe, hqa, hqb]
    by_cases hle : qb ≤ qa
    · rw [List.orderedInsert, if_pos (hge.mpr hle)]
      cases hc : compare qb qa with
      | lt => simp [insertUnwrap, hcmp, hc]
      | eq => simp [insertUnwrap, hcmp, hc]
      | gt => exact absurd (compare_gt_iff_gt.mp hc) (not_lt.mpr hle)
    · have hgt : compare qb qa = Ordering.gt := compare_gt_iff_gt.mpr (not_le.mp hle)
      rw [List.orderedInsert, if_neg (fun hcg => hle (hge.mp hcg))]
      have ihl := ih (fun p hp => hl p (List.mem_cons_of_mem b hp))
      simp [insertUnwrap, hcmp, hgt, ihl]

/-- On snapshots with defined (non-NaN) CPU values, the panic-propagating sort
model succeeds and agrees with `List.insertionSort` for the descending-CPU
order. -/
theorem sortByUnwrap_eq_insertionSort (l : List ProcRecord)
    (hl : ∀ p ∈ l, p.cpu.isSome) :
    sortByUnwrap cmpProc l = some (List.insertionSort cpuGe l) := by
  induction l with
  | nil => simp [sortByUnwrap, List.insertionSort]
  | cons x xs ih =>
    have hxs : ∀ p ∈ xs, p.cpu.isSome := fun p hp => hl p (List.mem_cons_of_mem x hp)
    have hsorted : ∀ p ∈ List.insertionSort cpuGe xs, p.cpu.isSome := fun p hp =>
      hxs p ((List.mem_insertionSort cpuGe).mp hp)
    rw [sortByUnwrap, ih hxs, List.insertionSort]
    exact insertUnwrap_eq_orderedInsert x _ (hl x (List.mem_cons_self x xs)) hsorted

/-- The snapshot containing a NaN CPU reading used to exercise the sort. -/
def nanProcs : List ProcRecord :=
  [⟨1, ['a'], some 1, 0⟩, ⟨2, ['b'], none, 0⟩]

/-- Claim C1: the claim asks that ranking a snapshot containing a NaN CPU
value still produce a ranked result; on the concrete two-process snapshot
`nanProcs`, whose second record has a NaN CPU value, the comparator
`partial_cmp(..).unwrap()` is undefined and the sort panics — modelled as
`rankedView` producing `none` instead of a ranked result. -/
theorem claim_C1 :
    (∃ p ∈ nanProcs, p.cpu = none) ∧ rankedView nanProcs = none := by
  constructor
  · exact ⟨⟨2, ['b'], none, 0⟩, by simp [nanProcs], rfl⟩
  · rfl

/-- The spec's fixed example snapshot — P1(cpu 90.0), P2(cpu 45.5),
P3(cpu 45.5), P4(cpu 10.0) — listed in a scrambled order. -/
def exampleProcs : List ProcRecord :=
  [⟨4, ['P', '4'], some 10, 0⟩, ⟨2, ['P', '2'], some (91 / 2), 0⟩,
   ⟨1, ['P', '1'], some 90, 0⟩, ⟨3, ['P', '3'], some (91 / 2), 0⟩]

/-- The ranking the spec requires for `exampleProcs`: P1 first, P4 last,
P2 and P3 adjacent. -/
def exampleRanked : List ProcRecord :=
  [⟨1, ['P', '1'], some 90, 0⟩, ⟨2, ['P', '2'], some (91 / 2), 0⟩,
   ⟨3, ['P', '3'], some (91 / 2), 0⟩, ⟨4, ['P', '4'], some 10, 0⟩]

/-- Claim C3: on any snapshot with defined CPU values the Ranked View exists,
has at most 10 entries, and is pairwise descending in CPU percent; on the
spec's example snapshot it ranks P1 first, P4 last, with P2 and P3 adjacent. -/
theorem claim_C3 (l : List ProcRecord) (hl : ∀ p ∈ l, p.cpu.isSome) :
    (∃ ranked, rankedView l = some ranked ∧
      ranked.length ≤ 10 ∧ List.Pairwise cpuGe ranked) ∧
    rankedView exampleProcs = some exampleRanked := by
  constructor
  · refine ⟨(List.insertionSort cpuGe l).take 10, ?_, ?_, ?_⟩
    · rw [rankedView, sortByUnwrap_eq_insertionSort l hl, Option.map_some']
    · exact List.length_take_le 10 (List.insertionSort cpuGe l)
    · exact (List.sorted_insertionSort cpuGe l).sublist (List.take_sublist 10 _)
  · rw [rankedView, sortByUnwrap_eq_insertionSort exampleProcs (by decide)]
    norm_num [exampleProcs, exampleRanked, List.insertionSort, List.orderedInsert, cpuGe]

/-- Claim C3 witness: the general part instantiated on the spec's example
snapshot. -/
theorem claim_C3_witness :
    ∃ ranked, rankedView exampleProcs = some ranked ∧
      ranked.length ≤ 10 ∧ List.Pairwise cpuGe ranked :=
  (claim_C3 exampleProcs (by decide)).1

/-- Decimal digit characters of a natural number, as Rust `Display` prints
it. -/
def natChars (n : ℕ) : List Char := Nat.toDigits 10 n

/-- Models Rust's `{:<w}` format specifier: left-justify to minimum field
width `w`, padding on the right with spaces; a longer value is not
truncated. -/
def padRightTo (w : ℕ) (s : List Char) : List Char :=
  s ++ List.replicate (w - s.length) ' '

/-- Models Rust's `{:>w}` format specifier: right-justify to minimum field
width `w`, padding on the left with spaces; a longer value is not
truncated. -/
def padLeftTo (w : ℕ) (s : List Char) : List Char :=
  List.replicate (w - s.length) ' ' ++ s

/-- Models Rust's `{:.1}` fixed-point formatting of a non-negative finite
float: the value rounded to one decimal digit, printed as integer part, `.`,
one fractional digit (tie behaviour of the binary float is immaterial here
and modelled as round-half-up). -/
def fmtFixed1 (q : ℚ) : List Char :=
  natChars (Int.toNat ⌊q * 10 + 1 / 2⌋ / 10) ++
    '.' :: natChars (Int.toNat ⌊q * 10 + 1 / 2⌋ % 10)

/-- Formats the CPU field value as Rust does: `NaN` for a NaN reading,
`{:.1}` fixed-point otherwise. -/
def fmtCpu : Option ℚ → List Char
  | none => ['N', 'a', 'N']
  | some q => fmtFixed1 q

/-- Embeds the `ListItem` line format of `main.rs`:
`format!("PID: {:<6} | {:<20} | CPU: {:>5.1}% | MEM: {:>5} MB", p.pid(), p.name(), p.cpu_usage(), p.memory() / 1024)`.
Text is modelled as character lists. -/
def formatLine (p : ProcRecord) : List Char :=
  "PID: ".data ++ padRightTo 6 (natChars p.pid) ++ " | ".data ++
    padRightTo 20 p.name ++ " | CPU: ".data ++ padLeftTo 5 (fmtCpu p.cpu) ++
    "% | MEM: ".data ++ padLeftTo 5 (natChars (p.memBytes / 1024)) ++ " MB".data

/-- A left-justified field is at least `w` wide, exactly `w` wide when the
value fits, and begins with the untruncated value. -/
theorem padRightTo_spec (w : ℕ) (s : List Char) :
    (padRightTo w s).length = max w s.length ∧
    (padRightTo w s).take s.length = s := by
  constructor
  · simp [padRightTo]
    omega
  · rw [padRightTo, List.take_left]

/-- A right-justified field is at least `w` wide, exactly `w` wide when the
value fits, and ends with the untruncated value. -/
theorem padLeftTo_spec (w : ℕ) (s : List Char) :
    (padLeftTo w s).length = max w s.length ∧
    (padLeftTo w s).drop ((padLeftTo w s).length - s.length) = s := by
  constructor
  · simp [padLeftTo]
    omega
  · rw [padLeftTo, List.drop_left']
    simp [padLeftTo]
    try omega

/-- Claim C7: each Ranked View line is the fixed-column format of `main.rs` —
a left-justified 6-wide PID field, a left-justified 20-wide name field that
never truncates an over-long name, a right-justified 5-wide CPU field with
one decimal followed by `%`, and a right-justified 5-wide field holding
`memory bytes / 1024` — where each field is wider only when its value
overflows it. -/
theorem claim_C7 (p : ProcRecord) :
    formatLine p =
      "PID: ".data ++ padRightTo 6 (natChars p.pid) ++ " | ".data ++
        padRightTo 20 p.name ++ " | CPU: ".data ++ padLeftTo 5 (fmtCpu p.cpu) ++
        "% | MEM: ".data ++ padLeftTo 5 (natChars (p.memBytes / 1024)) ++ " MB".data ∧
    (padRightTo 6 (natChars p.pid)).length = max 6 (natChars p.pid).length ∧
    (padRightTo 6 (natChars p.pid)).take (natChars p.pid).length = natChars p.pid ∧
    (padRightTo 20 p.name).length = max 20 p.name.length ∧
    (padRightTo 20 p.name).take p.name.length = p.name ∧
    (padLeftTo 5 (fmtCpu p.cpu)).length = max 5 (fmtCpu p.cpu).length ∧
    (padLeftTo 5 (fmtCpu p.cpu)).drop
      ((padLeftTo 5 (fmtCpu p.cpu)).length - (fmtCpu p.cpu).length) = fmtCpu p.cpu ∧
    (padLeftTo 5 (natChars (p.memBytes / 1024))).length =
      max 5 (natChars (p.memBytes / 1024)).length ∧
    (padLeftTo 5 (natChars (p.memBytes / 1024))).drop
      ((padLeftTo 5 (natChars (p.memBytes / 1024))).length -
        (natChars (p.memBytes / 1024)).length) = natChars (p.memBytes / 1024) :=
  ⟨rfl, (padRightTo_spec 6 _).1, (padRightTo_spec 6 _).2,
   (padRightTo_spec 20 _).1, (padRightTo_spec 20 _).2,
   (padLeftTo_spec 5 _).1, (padLeftTo_spec 5 _).2,
   (padLeftTo_spec 5 _).1, (padLeftTo_spec 5 _).2⟩

/-- Key codes as the loop distinguishes them: a character key or anything
else. -/
inductive KeyCode where
  | char (c : Char)
  | other
  deriving DecidableEq

/-- Terminal events returned by `event::read()`: a key event or a non-key
event (resize, mouse, ...), which the `if let Event::Key(key)` lets fall
through. -/
inductive TermEvent where
  | key (code : KeyCode)
  | nonKey
  deriving DecidableEq

/-- Embeds the quit test of `main.rs`: a key event whose code is
`KeyCode::Char('q')`; any non-key event or other key is not a quit. -/
def isQuitEvent : TermEvent → Bool
  | TermEvent.key (KeyCode.char c) => c == 'q'
  | _ => false

/-- The spec's loop state machine: the loop is `Running` until the quit key
breaks it, after which it is `Terminated`. -/
inductive LoopState where
  | Running
  | Terminated
  deriving DecidableEq

/-- The loop state after one input poll, read off the code's control flow:
`break` (Terminated) exactly when the poll produced an event (`polled`) and
`event::read()` returned a `q` key event; otherwise fall through to the next
tick (Running). -/
def tickState (polled : Bool) (ev : TermEvent) : LoopState :=
  if polled && isQuitEvent ev then LoopState.Terminated else LoopState.Running

/-- The terminal environment `main` runs against: the outcome of every
fallible terminal operation, with the per-tick operations indexed by tick
number. Errors are abstract `io::Error` values, modelled as naturals. -/
structure Env where
  enableRaw : Except ℕ Unit
  enterAlt : Except ℕ Unit
  mkTerm : Except ℕ Unit
  draw : ℕ → Except ℕ Unit
  poll : ℕ → Except ℕ Bool
  readEv : ℕ → Except ℕ TermEvent
  disableRaw : Except ℕ Unit
  leaveAlt : Except ℕ Unit
  showCursor : Except ℕ Unit

/-- Observable terminal operations, recorded in the order performed. -/
inductive Action where
  | draw (k : ℕ)
  | poll (k : ℕ)
  | readEv (k : ℕ)
  | disableRaw
  | leaveAlt
  | showCursor
  deriving DecidableEq

/-- How a run of `main` ends: exit code 0 (`Ok(())`), a propagated I/O error
(nonzero exit), or still running when the observation bound is reached. -/
inductive Outcome where
  | exitOk
  | exitErr (e : ℕ)
  | running
  deriving DecidableEq

/-- Embeds the shutdown sequence after the loop breaks:
`disable_raw_mode()?; execute!(.., LeaveAlternateScreen)?; terminal.show_cursor()?; Ok(())`,
each `?` propagating its error; paired with the operations performed. -/
def shutdownRun (env : Env) : Outcome × List Action :=
  match env.disableRaw with
  | Except.error e => (Outcome.exitErr e, [Action.disableRaw])
  | Except.ok _ =>
    match env.leaveAlt with
    | Except.error e => (Outcome.exitErr e, [Action.disableRaw, Action.leaveAlt])
    | Except.ok _ =>
      match env.showCursor with
      | Except.error e =>
        (Outcome.exitErr e, [Action.disableRaw, Action.leaveAlt, Action.showCursor])
      | Except.ok _ =>
        (Outcome.exitOk, [Action.disableRaw, Action.leaveAlt, Action.showCursor])

/-- Embeds the dashboard loop of `main.rs` starting at tick `k`, observed for
at most `fuel` iterations: draw the frame (`terminal.draw(..)?`), poll for
input (`event::poll(timeout)?`), on an available event read it
(`event::read()?`) and `break` on the `q` key into the shutdown sequence;
otherwise continue with the next tick. Every `?` propagates its error.
Paired with the operations performed. -/
def loopRun (env : Env) : ℕ → ℕ → Outcome × List Action
  | 0, _ => (Outcome.running, [])
  | fuel + 1, k =>
    match env.draw k with
    | Except.error e => (Outcome.exitErr e, [Action.draw k])
    | Except.ok _ =>
      match env.poll k with
      | Except.error e => (Outcome.exitErr e, [Action.draw k, Action.poll k])
      | Except.ok false =>
        let r := loopRun env fuel (k + 1)
        (r.1, Action.draw k :: Action.poll k :: r.2)
      | Except.ok true =>
        match env.readEv k with
        | Except.error e =>
          (Outcome.exitErr e, [Action.draw k, Action.poll k, Action.readEv k])
        | Except.ok ev =>
          if isQuitEvent ev then
            let s := shutdownRun env
            (s.1, Action.draw k :: Action.poll k :: Action.readEv k :: s.2)
          else
            let r := loopRun env fuel (k + 1)
            (r.1, Action.draw k :: Action.poll k :: Action.readEv k :: r.2)

/-- Embeds `main` from `main.rs`: startup — `enable_raw_mode()?`,
`execute!(stdout, EnterAlternateScreen)?`, `Terminal::new(backend)?` — then
the loop. Every `?` propagates its error. -/
def mainRun (env : Env) (fuel : ℕ) : Outcome × List Action :=
  match env.enableRaw with
  | Except.error e => (Outcome.exitErr e, [])
  | Except.ok _ =>
    match env.enterAlt with
    | Except.error e => (Outcome.exitErr e, [])
    | Except.ok _ =>
      match env.mkTerm with
      | Except.error e => (Outcome.exitErr e, [])
      | Except.ok _ => loopRun env fuel 0

/-- All three startup operations succeed. -/
def startupOk (env : Env) : Prop :=
  env.enableRaw = Except.ok () ∧ env.enterAlt = Except.ok () ∧ env.mkTerm = Except.ok ()

/-- Tick `j` completes without error and without a quit: the draw succeeds and
the poll either times out or yields a non-quit event that reads
successfully. -/
def tickClean (env : Env) (j : ℕ) : Prop :=
  env.draw j = Except.ok () ∧
  (env.poll j = Except.ok false ∨
    (env.poll j = Except.ok true ∧
      ∃ ev, env.readEv j = Except.ok ev ∧ isQuitEvent ev = false))

/-- Every tick before `k` is clean. -/
def ticksCleanUpTo (env : Env) (k : ℕ) : Prop := ∀ j, j < k → tickClean env j

/-- Tick `k` draws successfully and its poll yields a `q` key event. -/
def quitAt (env : Env) (k : ℕ) : Prop :=
  env.draw k = Except.ok () ∧ env.poll k = Except.ok true ∧
    env.readEv k = Except.ok (TermEvent.key (KeyCode.char 'q'))

/-- All three shutdown operations succeed. -/
def shutdownOk (env : Env) : Prop :=
  env.disableRaw = Except.ok () ∧ env.leaveAlt = Except.ok () ∧
    env.showCursor = Except.ok ()

/-- A clean tick neither exits nor errors: the loop's outcome from tick `k`
is its outcome from tick `k + 1`. -/
theorem loopRun_clean_step (env : Env) (fuel k : ℕ) (h : tickClean env k) :
    (loopRun env (fuel + 1) k).1 = (loopRun env fuel (k + 1)).1 := by
  obtain ⟨hd, hp⟩ := h
  rcases hp with hp | ⟨hp, ev, hr, hq⟩
  · simp [loopRun, hd, hp]
  · simp [loopRun, hd, hp, hr, hq]

/-- Clean ticks `k, ..., k + m - 1` pass control to tick `k + m`. -/
theorem loopRun_clean_skip (env : Env) (m : ℕ) :
    ∀ fuel k : ℕ, (∀ j, k ≤ j → j < k + m → tickClean env j) →
      (loopRun env (fuel + m) k).1 = (loopRun env fuel (k + m)).1 := by
  induction m with
  | zero => intro fuel k _; rfl
  | succ m ih =>
    intro fuel k h
    have hk : tickClean env k := h k le_rfl (by omega)
    have step : (loopRun env (fuel + m + 1) k).1 = (loopRun env (fuel + m) (k + 1)).1 :=
      loopRun_clean_step env (fuel + m) k hk
    have rest := ih fuel (k + 1) (fun j hj1 hj2 => h j (by omega) (by omega))
    calc (loopRun env (fuel + (m + 1)) k).1
        = (loopRun env (fuel + m) (k + 1)).1 := step
      _ = (loopRun env fuel (k + 1 + m)).1 := rest
      _ = (loopRun env fuel (k + (m + 1))).1 := by rw [show k + 1 + m = k + (m + 1) by omega]

/-- With successful startup, `main` is the loop from tick 0. -/
theorem mainRun_of_startupOk (env : Env) (fuel : ℕ) (h : startupOk env) :
    mainRun env fuel = loopRun env fuel 0 := by
  obtain ⟨h1, h2, h3⟩ := h
  simp [mainRun, h1, h2, h3]

/-- When the first `k` ticks are clean, the loop's outcome is decided from
tick `k` with the remaining fuel. -/
theorem loopRun_reach (env : Env) (fuel k : ℕ) (hk : k < fuel)
    (hc : ticksCleanUpTo env k) :
    (loopRun env fuel 0).1 = (loopRun env (fuel - k) k).1 := by
  have h := loopRun_clean_skip env k (fuel - k) 0 (fun j _ hj2 => hc j (by omega))
  rw [show fuel - k + k = fuel by omega] at h
  rw [h, Nat.zero_add]

/-- A failing draw call ends the run with that error. -/
theorem loopRun_succ_draw_err (env : Env) (fuel k e : ℕ)
    (h : env.draw k = Except.error e) :
    (loopRun env (fuel + 1) k).1 = Outcome.exitErr e := by
  simp [loopRun, h]

/-- A failing poll call ends the run with that error. -/
theorem loopRun_succ_poll_err (env : Env) (fuel k e : ℕ)
    (hd : env.draw k = Except.ok ()) (hp : env.poll k = Except.error e) :
    (loopRun env (fuel + 1) k).1 = Outcome.exitErr e := by
  simp [loopRun, hd, hp]

/-- A failing read call ends the run with that error. -/
theorem loopRun_succ_read_err (env : Env) (fuel k e : ℕ)
    (hd : env.draw k = Except.ok ()) (hp : env.poll k = Except.ok true)
    (hr : env.readEv k = Except.error e) :
    (loopRun env (fuel + 1) k).1 = Outcome.exitErr e := by
  simp [loopRun, hd, hp, hr]

/-- A `q` key event breaks the loop into the shutdown sequence, which decides
the exit status. -/
theorem loopRun_succ_quit (env : Env) (fuel k : ℕ)
    (hd : env.draw k = Except.ok ()) (hp : env.poll k = Except.ok true)
    (hr : env.readEv k = Except.ok (TermEvent.key (KeyCode.char 'q'))) :
    (loopRun env (fuel + 1) k).1 = (shutdownRun env).1 := by
  simp [loopRun, hd, hp, hr, isQuitEvent]

/-- A fully successful shutdown yields exit code 0. -/
theorem shutdownRun_ok (env : Env) (h : shutdownOk env) :
    (shutdownRun env).1 = Outcome.exitOk := by
  obtain ⟨h1, h2, h3⟩ := h
  simp [shutdownRun, h1, h2, h3]

/-- A failing `disable_raw_mode` during shutdown propagates its error. -/
theorem shutdownRun_disable_err (env : Env) (e : ℕ)
    (h : env.disableRaw = Except.error e) :
    (shutdownRun env).1 = Outcome.exitErr e := by
  simp [shutdownRun, h]

/-- A failing `LeaveAlternateScreen` during shutdown propagates its error. -/
theorem shutdownRun_leave_err (env : Env) (e : ℕ)
    (h1 : env.disableRaw = Except.ok ()) (h2 : env.leaveAlt = Except.error e) :
    (shutdownRun env).1 = Outcome.exitErr e := by
  simp [shutdownRun, h1, h2]

/-- A failing `show_cursor` during shutdown propagates its error. -/
theorem shutdownRun_cursor_err (env : Env) (e : ℕ)
    (h1 : env.disableRaw = Except.ok ()) (h2 : env.leaveAlt = Except.ok ())
    (h3 : env.showCursor = Except.error e) :
    (shutdownRun env).1 = Outcome.exitErr e := by
  simp [shutdownRun, h1, h2, h3]

/-- Claim C4: a poll that yields a `q` key event — and nothing else — moves
the loop from Running to Terminated; the quit tick runs the shutdown sequence
before the run ends, and any other key event, non-key event, or empty poll
leaves the loop Running and proceeds to the next tick. -/
theorem claim_C4 (env : Env) (fuel k : ℕ) (hd : env.draw k = Except.ok ()) :
    (∀ ev, tickState true ev = LoopState.Terminated ↔
      ev = TermEvent.key (KeyCode.char 'q')) ∧
    (∀ ev, tickState false ev = LoopState.Running) ∧
    (∀ ev, env.poll k = Except.ok true → env.readEv k = Except.ok ev →
      isQuitEvent ev = true →
      loopRun env (fuel + 1) k =
        ((shutdownRun env).1,
          Action.draw k :: Action.poll k :: Action.readEv k :: (shutdownRun env).2)) ∧
    (∀ ev, env.poll k = Except.ok true → env.readEv k = Except.ok ev →
      isQuitEvent ev = false →
      loopRun env (fuel + 1) k =
        ((loopRun env fuel (k + 1)).1,
          Action.draw k :: Action.poll k :: Action.readEv k ::
            (loopRun env fuel (k + 1)).2)) ∧
    (env.poll k = Except.ok false →
      loopRun env (fuel + 1) k =
        ((loopRun env fuel (k + 1)).1,
          Action.draw k :: Action.poll k :: (loopRun env fuel (k + 1)).2)) := by
  refine ⟨fun ev => ?_, fun ev => ?_, fun ev hp hr hq => ?_, fun ev hp hr hq => ?_,
    fun hp => ?_⟩
  · cases ev with
    | key code =>
      cases code with
      | char c => by_cases hc : c = 'q' <;> simp [tickState, isQuitEvent, hc]
      | other => simp [tickState, isQuitEvent]
    | nonKey => simp [tickState, isQuitEvent]
  · simp [tickState]
  · simp [loopRun, hd, hp, hr, hq]
  · simp [loopRun, hd, hp, hr, hq]
  · simp [loopRun, hd, hp]

/-- The all-success environment in which the very first poll delivers the `q`
key. -/
def quitEnv : Env where
  enableRaw := Except.ok ()
  enterAlt := Except.ok ()
  mkTerm := Except.ok ()
  draw := fun _ => Except.ok ()
  poll := fun _ => Except.ok true
  readEv := fun _ => Except.ok (TermEvent.key (KeyCode.char 'q'))
  disableRaw := Except.ok ()
  leaveAlt := Except.ok ()
  showCursor := Except.ok ()

/-- `quitEnv` with a failing `enable_raw_mode`. -/
def rawFailEnv : Env := { quitEnv with enableRaw := Except.error 7 }

/-- Claim C4 witness: in `quitEnv` the first tick draws, polls, reads the `q`
key, runs the three shutdown operations and exits with code 0. -/
theorem claim_C4_witness :
    loopRun quitEnv 1 0 =
      (Outcome.exitOk,
        [Action.draw 0, Action.poll 0, Action.readEv 0,
          Action.disableRaw, Action.leaveAlt, Action.showCursor]) := by
  have h := (claim_C4 quitEnv 0 0 rfl).2.2.1 (TermEvent.key (KeyCode.char 'q')) rfl rfl rfl
  rw [h]
  rfl

/-- Claim C9: every terminal I/O failure — during startup, a tick's draw,
poll or read, or shutdown — is fatal and propagates its error as the run's
outcome (nonzero exit), while a graceful `q` quit with working I/O exits with
code 0. -/
theorem claim_C9 (env : Env) (fuel : ℕ) :
    (∀ e, env.enableRaw = Except.error e → (mainRun env fuel).1 = Outcome.exitErr e) ∧
    (∀ e, env.enableRaw = Except.ok () → env.enterAlt = Except.error e →
      (mainRun env fuel).1 = Outcome.exitErr e) ∧
    (∀ e, env.enableRaw = Except.ok () → env.enterAlt = Except.ok () →
      env.mkTerm = Except.error e → (mainRun env fuel).1 = Outcome.exitErr e) ∧
    (∀ k e, startupOk env → k < fuel → ticksCleanUpTo env k →
      env.draw k = Except.error e → (mainRun env fuel).1 = Outcome.exitErr e) ∧
    (∀ k e, startupOk env → k < fuel → ticksCleanUpTo env k →
      env.draw k = Except.ok () → env.poll k = Except.error e →
      (mainRun env fuel).1 = Outcome.exitErr e) ∧
    (∀ k e, startupOk env → k < fuel → ticksCleanUpTo env k →
      env.draw k = Except.ok () → env.poll k = Except.ok true →
      env.readEv k = Except.error e → (mainRun env fuel).1 = Outcome.exitErr e) ∧
    (∀ k e, startupOk env → k < fuel → ticksCleanUpTo env k → quitAt env k →
      env.disableRaw = Except.error e → (mainRun env fuel).1 = Outcome.exitErr e) ∧
    (∀ k e, startupOk env → k < fuel → ticksCleanUpTo env k → quitAt env k →
      env.disableRaw = Except.ok () → env.leaveAlt = Except.error e →
      (mainRun env fuel).1 = Outcome.exitErr e) ∧
    (∀ k e, startupOk env → k < fuel → ticksCleanUpTo env k → quitAt env k →
      env.disableRaw = Except.ok () → env.leaveAlt = Except.ok () →
      env.showCursor = Except.error e → (mainRun env fuel).1 = Outcome.exitErr e) ∧
    (∀ k, startupOk env → k < fuel → ticksCleanUpTo env k → quitAt env k →
      shutdownOk env → (mainRun env fuel).1 = Outcome.exitOk) := by
  have reach : ∀ k, startupOk env → k < fuel → ticksCleanUpTo env k →
      ∃ f', fuel - k = f' + 1 ∧ (mainRun env fuel).1 = (loopRun env (f' + 1) k).1 := by
    intro k hst hk hc
    obtain ⟨f', hf⟩ : ∃ f', fuel - k = f' + 1 := ⟨fuel - k - 1, by omega⟩
    refine ⟨f', hf, ?_⟩
    rw [mainRun_of_startupOk env fuel hst, loopRun_reach env fuel k hk hc, hf]
  refine ⟨fun e h => ?_, fun e h1 h => ?_, fun e h1 h2 h => ?_,
    fun k e hst hk hc h => ?_, fun k e hst hk hc hd h => ?_,
    fun k e hst hk hc hd hp h => ?_, fun k e hst hk hc hq h => ?_,
    fun k e hst hk hc hq h1 h => ?_, fun k e hst hk hc hq h1 h2 h => ?_,
    fun k hst hk hc hq hsd => ?_⟩
  · simp [mainRun, h]
  · simp [mainRun, h1, h]
  · simp [mainRun, h1, h2, h]
  · obtain ⟨f', -, hm⟩ := reach k hst hk hc
    rw [hm, loopRun_succ_draw_err env f' k e h]
  · obtain ⟨f', -, hm⟩ := reach k hst hk hc
    rw [hm, loopRun_succ_poll_err env f' k e hd h]
  · obtain ⟨f', -, hm⟩ := reach k hst hk hc
    rw [hm, loopRun_succ_read_err env f' k e hd hp h]
  · obtain ⟨f', -, hm⟩ := reach k hst hk hc
    obtain ⟨hd, hp, hr⟩ := hq
    rw [hm, loopRun_succ_quit env f' k hd hp hr, shutdownRun_disable_err env e h]
  · obtain ⟨f', -, hm⟩ := reach k hst hk hc
    obtain ⟨hd, hp, hr⟩ := hq
    rw [hm, loopRun_succ_quit env f' k hd hp hr, shutdownRun_leave_err env e h1 h]
  · obtain ⟨f', -, hm⟩ := reach k hst hk hc
    obtain ⟨hd, hp, hr⟩ := hq
    rw [hm, loopRun_succ_quit env f' k hd hp hr, shutdownRun_cursor_err env e h1 h2 h]
  · obtain ⟨f', -, hm⟩ := reach k hst hk hc
    obtain ⟨hd, hp, hr⟩ := hq
    rw [hm, loopRun_succ_quit env f' k hd hp hr, shutdownRun_ok env hsd]

/-- Claim C9 witness: a failing `enable_raw_mode` (error 7) makes the run exit
with that error, while the graceful `q` quit in `quitEnv` exits with code 0. -/
theorem claim_C9_witness :
    (mainRun rawFailEnv 1).1 = Outcome.exitErr 7 ∧
    (mainRun quitEnv 1).1 = Outcome.exitOk := by
  constructor
  · exact (claim_C9 rawFailEnv 1).1 7 rfl
  · exact (claim_C9 quitEnv 1).2.2.2.2.2.2.2.2.2 0 ⟨rfl, rfl, rfl⟩ (by norm_num)
      (fun j hj => absurd hj (by omega)) ⟨rfl, rfl, rfl⟩ ⟨rfl, rfl, rfl⟩

end Rustop
